import Mathlib

/-!
# Town-builder scene-synchronization engine: a shallow embedding

This file embeds the core of the `town-builder` repository
(`app/services/storage.py`, `app/services/batch_operations.py`,
`app/services/history.py`, `app/services/query.py`, and the undo/redo
routes of `app/routes/history.py`) and proves properties about it.

Modeling conventions:

* Python scene values (JSON-like dicts) are the type `JVal`; a Python
  dict is the insertion-ordered association structure `JObj`.  Python
  `None` is `JVal.null` (`dict.get` of a missing key yields `None`,
  which is the same value as a stored JSON `null`, exactly as in the
  source).  Booleans and arrays do not occur in the scene data handled
  by the modeled operations and are omitted from the value universe.
* Python floats are modeled as rationals (`ℚ`).  Euclidean distances
  are represented throughout by their *squares*, which the code only
  ever compares with each other or with constant thresholds (`< 2.0`,
  `<= radius`); squaring is strictly monotone on nonnegative reals, so
  every comparison and sort order is preserved exactly.
* Python lists are mutable heap objects.  The in-memory
  `storage.get_town_data`/`set_town_data` copy dicts shallowly
  (`dict.copy()`), sharing the per-category list objects.  The
  embedding makes this explicit: a `Heap` maps list references (`Nat`)
  to list contents, and a town dict (the store, and the
  `before_state`/`after_state` dicts held by history entries) is an
  association list from category names to list references.
* The storage/history configuration modeled is the in-memory fallback
  (no Redis client), the degraded mode the code is documented to
  support.  Fully awaited code paths (the history service and the
  undo/redo routes) are modeled as pure state transformers.  Three
  methods call the `async` storage accessor *without* `await` —
  `execute_operations` (batch_operations.py:35) and the `QueryManager`
  methods (query.py:32/183): each binds a coroutine object and raises
  (`AttributeError` at `.copy()`/`.items()`, `TypeError` at the `in`
  membership test) before reading or writing any state; they are
  modeled as returning a `PyErr` outcome with the state unchanged.
* `uuid.uuid4()` (ids of generated objects and of history entries) is
  modeled by a fresh-name counter threaded through the state.
* A FastAPI `HTTPException(status_code=400, ...)` raised by a route is
  the route's error *response*; it is modeled as an error result value
  (`RouteResult.httpError`), not as divergence.
-/

set_option maxRecDepth 100000

namespace TownBuilder

mutual
/-- JSON-like Python values (`None`, numbers, strings, dicts).  `null`
is Python `None`. -/
inductive JVal where
  | null
  | num (q : ℚ)
  | str (s : String)
  | obj (fs : JObj)
  deriving DecidableEq, Repr
/-- A Python dict with `String` keys: an insertion-ordered list of
key/value bindings. -/
inductive JObj where
  | nil
  | cons (k : String) (v : JVal) (rest : JObj)
  deriving DecidableEq, Repr
end

/-- Build a `JObj` from a list of bindings (literal notation helper). -/
def JObj.ofList : List (String × JVal) → JObj
  | [] => .nil
  | (k, v) :: rest => .cons k v (JObj.ofList rest)

/-- `d.get(k)` returning `some` of the first binding, `none` if the key
is absent. -/
def JObj.lookup : JObj → String → Option JVal
  | .nil, _ => none
  | .cons k v rest, key => if k = key then some v else rest.lookup key

/-- `k in d`. -/
def JObj.hasKey (d : JObj) (k : String) : Bool :=
  (d.lookup k).isSome

/-- `d[k] = v`: replace the value of an existing key in place, or
append a new binding at the end (Python dict insertion order). -/
def JObj.set : JObj → String → JVal → JObj
  | .nil, key, v => .cons key v .nil
  | .cons k v0 rest, key, v =>
    if k = key then .cons k v rest else .cons k v0 (rest.set key v)

/-- Concatenation of binding sequences (helper for `merge`). -/
def JObj.append : JObj → JObj → JObj
  | .nil, b => b
  | .cons k v rest, b => .cons k v (rest.append b)

/-- Bindings of the first dict with values overridden by the second
where the key occurs there (helper for `merge`). -/
def JObj.override (b : JObj) : JObj → JObj
  | .nil => .nil
  | .cons k v rest => .cons k ((b.lookup k).getD v) (JObj.override b rest)

/-- Bindings of the argument whose keys do not occur in `a` (helper for
`merge`). -/
def JObj.newKeys (a : JObj) : JObj → JObj
  | .nil => .nil
  | .cons k v rest =>
    if a.hasKey k then JObj.newKeys a rest else .cons k v (JObj.newKeys a rest)

/-- Python `{**a, **b}`: `a`'s bindings in order with `b`'s values
taking precedence, followed by `b`'s new keys in order. -/
def JObj.merge (a b : JObj) : JObj :=
  (JObj.override b a).append (JObj.newKeys a b)

/-- `d.get(k, 0)` coerced to a rational: the coordinate accessors of
the source (`model_pos.get("x", 0)` etc.).  A non-numeric value would
raise a `TypeError` in Python (failing the surrounding operation); the
scene data handled by the claims is numeric, and the embedding returns
the default there. -/
def JObj.getQ (d : JObj) (k : String) : ℚ :=
  match d.lookup k with
  | some (.num q) => q
  | _ => 0

/-- `obj.get("position", {})` restricted to dict-valued positions. -/
def posOf (o : JObj) : JObj :=
  match o.lookup "position" with
  | some (.obj fs) => fs
  | _ => .nil

/-! ### Kernel-computable rational arithmetic

The standard `+`/`-`/`*` on `ℚ` are `@[irreducible]` in this
toolchain, so closed instances of the model could not be evaluated by
`decide`.  `qAdd`/`qSub`/`qMul` compute the same values through
`mkRat` (proved below), and the distance computation uses them. -/

/-- Rational addition via `mkRat`; equals `+` (see `qAdd_eq`). -/
def qAdd (a b : ℚ) : ℚ :=
  mkRat (a.num * (b.den : ℤ) + b.num * (a.den : ℤ)) (a.den * b.den)

/-- Rational subtraction via `mkRat`; equals `-` (see `qSub_eq`). -/
def qSub (a b : ℚ) : ℚ :=
  mkRat (a.num * (b.den : ℤ) - b.num * (a.den : ℤ)) (a.den * b.den)

/-- Rational multiplication via `mkRat`; equals `*` (see `qMul_eq`). -/
def qMul (a b : ℚ) : ℚ :=
  mkRat (a.num * b.num) (a.den * b.den)

theorem qAdd_eq (a b : ℚ) : qAdd a b = a + b := by
  rw [qAdd, Rat.mkRat_eq_divInt]
  push_cast
  rw [← Rat.divInt_add_divInt a.num b.num (by exact_mod_cast a.den_ne_zero)
    (by exact_mod_cast b.den_ne_zero), Rat.num_divInt_den, Rat.num_divInt_den]

theorem qSub_eq (a b : ℚ) : qSub a b = a - b := by
  rw [qSub, Rat.mkRat_eq_divInt]
  push_cast
  rw [← Rat.divInt_sub_divInt a.num b.num (by exact_mod_cast a.den_ne_zero)
    (by exact_mod_cast b.den_ne_zero), Rat.num_divInt_den, Rat.num_divInt_den]

theorem qMul_eq (a b : ℚ) : qMul a b = a * b := by
  rw [qMul, Rat.mkRat_eq_divInt]
  push_cast
  rw [← Rat.divInt_mul_divInt' a.num (a.den : ℤ) b.num (b.den : ℤ),
    Rat.num_divInt_den, Rat.num_divInt_den]

/-- Squared Euclidean distance between two point dicts, with the
source's `get(_, 0)` defaults for missing coordinates
(`QueryManager._calculate_distance` and the inline computation of
`_delete_object`, in squared form `dx*dx + dy*dy + dz*dz`). -/
def dsq (p1 p2 : JObj) : ℚ :=
  qAdd
    (qAdd (qMul (qSub (p2.getQ "x") (p1.getQ "x")) (qSub (p2.getQ "x") (p1.getQ "x")))
      (qMul (qSub (p2.getQ "y") (p1.getQ "y")) (qSub (p2.getQ "y") (p1.getQ "y"))))
    (qMul (qSub (p2.getQ "z") (p1.getQ "z")) (qSub (p2.getQ "z") (p1.getQ "z")))

/-- The distance computation in standard arithmetic. -/
theorem dsq_eq (p1 p2 : JObj) :
    dsq p1 p2 =
      (p2.getQ "x" - p1.getQ "x") * (p2.getQ "x" - p1.getQ "x") +
        (p2.getQ "y" - p1.getQ "y") * (p2.getQ "y" - p1.getQ "y") +
        (p2.getQ "z" - p1.getQ "z") * (p2.getQ "z" - p1.getQ "z") := by
  simp [dsq, qAdd_eq, qSub_eq, qMul_eq]

/-! ## Mutable lists and town dicts

A Python list is a heap object; `Heap` maps a list reference (its
index of allocation) to its current contents.  A town dict
(`_town_data_storage`, the working copy of `execute_operations`, and
the `before_state`/`after_state` of history entries) maps category
names to list references; `dict.copy()` copies the key/reference
pairs but shares the referenced lists, exactly as in the source. -/

/-- The store of mutable Python lists, addressed by allocation index. -/
abbrev Heap := List (List JObj)

/-- A town dict: category name to list reference (shallow structure of
`_town_data_storage` and its `.copy()` images). -/
abbrev TownDict := List (String × Nat)

/-- Dereference a list (reads of `town_data[category]`). -/
def heapGet (h : Heap) (r : Nat) : List JObj :=
  (h.get? r).getD []

/-- Replace the contents of a list object in place (models `append`,
`pop(i)` and index assignment, which are visible through every alias
of the list). -/
def heapSet (h : Heap) (r : Nat) (l : List JObj) : Heap :=
  h.set r l

/-- Allocate a fresh list (`town_data[category] = []`). -/
def heapAlloc (h : Heap) (l : List JObj) : Heap × Nat :=
  (h ++ [l], h.length)

/-- `category in town_data` lookup of the list reference. -/
def townLookup (t : TownDict) (c : String) : Option Nat :=
  (t.find? (fun kv => kv.1 = c)).map (·.2)

/-- The fully dereferenced value of a town dict: what a deep read
(e.g. `json.dumps`) of the state would see. -/
def readTown (h : Heap) (t : TownDict) : List (String × List JObj) :=
  t.map (fun kv => (kv.1, heapGet h kv.2))

/-! ## Batch operations (`app/services/batch_operations.py`)

`BatchOperation.model_dump()` (the route layer) produces a dict whose
`category`/`id`/`data`/`position`/`rotation`/`scale` entries are the
field values or `None`; `none` here is Python `None`.  Python
truthiness of the option fields: `None` and the empty string / empty
dict are falsy. -/

/-- One operation of a batch, after `model_dump()` in
`app/routes/batch.py` (fields of `app.models.schemas.BatchOperation`;
`rotation`/`scale` are read by the `edit` operation). -/
structure BatchOp where
  op : String
  category : Option String := none
  id : Option String := none
  data : Option JObj := none
  position : Option JObj := none
  rot : Option JObj := none
  scl : Option JObj := none
  deriving DecidableEq, Repr

/-- `not x` for an optional string (`None` and `""` are falsy). -/
def strFalsy : Option String → Bool
  | none => true
  | some s => s = ""

/-- `not x` for an optional dict (`None` and `{}` are falsy). -/
def dictFalsy : Option JObj → Bool
  | none => true
  | some d => d = .nil

/-- Tag of the message/branch a single-operation result came from
(the source formats human-readable strings; the tag identifies the
same branch without string formatting). -/
inductive OpMsg where
  | createdOk
  | updatedOk
  | deletedOk
  | editedOk
  | missingCategory
  | missingCategoryOrId
  | missingIdAndPosition
  | categoryNotFound
  | objectNotFound
  | noModelInRange
  | validationFailed
  | typeErr
  | unknownOp (o : String)
  deriving DecidableEq, Repr

/-- Result dict of a single operation (`success`, `op`, `message`, and
the `data` payload reduced to the id and, for delete-by-position, the
reported distance, in squared form). -/
structure OpResult where
  success : Bool
  opName : String
  msg : OpMsg
  rid : Option JVal := none
  rdsq : Option ℚ := none
  deriving DecidableEq, Repr

/-- Working state while a batch runs: the heap of lists, the working
town dict (`town_data`), and the fresh-name counter (`uuid.uuid4`). -/
structure Work where
  heap : Heap
  town : TownDict
  gen : Nat
  deriving DecidableEq, Repr

/-- Generated name `n` (model of `str(uuid.uuid4())`). -/
def genName (n : Nat) : String :=
  "g" ++ toString n

/-- `BatchOperationsManager._validate_object`: if a `position` key is
present it must be a dict containing `x` and `y` keys. -/
def validateObject (o : JObj) : Bool :=
  match o.lookup "position" with
  | none => true
  | some (.obj fs) => fs.hasKey "x" && fs.hasKey "y"
  | some _ => false

/-- First index in a category list whose object's `id` equals the
given string (`obj.get("id") == object_id`; a missing or non-string
`id` field never equals the string, as in Python). -/
def findIdxOfId (objs : List JObj) (oid : String) : Option Nat :=
  objs.findIdx? (fun o => o.lookup "id" = some (.str oid))

/-- Ensure the category key exists in the working dict, allocating a
fresh empty list when absent (`if category not in town_data:
town_data[category] = []`); returns the list reference. -/
def ensureCategory (w : Work) (c : String) : Work × Nat :=
  match townLookup w.town c with
  | some r => (w, r)
  | none =>
    let hr := heapAlloc w.heap []
    ({ w with heap := hr.1, town := w.town ++ [(c, hr.2)] }, hr.2)

/-- `BatchOperationsManager._create_object`.  Note the source order:
the category is ensured (a working-dict mutation) *before* the id is
generated and the object validated, and `data` is appended to the
category's list in place.  A `data` of `None` (`op.model_dump()` with
no `data`) raises a `TypeError` at `"id" not in data`, which
`_execute_single_operation` converts into a failure result. -/
def createObject (w : Work) (cat : Option String) (data : Option JObj)
    (validate : Bool) : Work × OpResult :=
  if strFalsy cat then
    (w, { success := false, opName := "create", msg := .missingCategory })
  else
    let c := cat.getD ""
    let wr := ensureCategory w c
    let w1 := wr.1
    let r := wr.2
    match data with
    | none => (w1, { success := false, opName := "create", msg := .typeErr })
    | some d =>
      let dg : JObj × Nat :=
        match d.lookup "id" with
        | some _ => (d, w1.gen)
        | none => (d.set "id" (.str (genName w1.gen)), w1.gen + 1)
      let d2 := dg.1
      let w2 := { w1 with gen := dg.2 }
      if validate && !validateObject d2 then
        (w2, { success := false, opName := "create", msg := .validationFailed })
      else
        ({ w2 with heap := heapSet w2.heap r (heapGet w2.heap r ++ [d2]) },
         { success := true, opName := "create", msg := .createdOk,
           rid := d2.lookup "id" })

/-- `BatchOperationsManager._update_object`: merge `data` into the
first object with the given id (`{**obj, **data}`, assigned back into
the shared list). -/
def updateObject (w : Work) (cat oid : Option String) (data : Option JObj) :
    Work × OpResult :=
  if strFalsy cat || strFalsy oid then
    (w, { success := false, opName := "update", msg := .missingCategoryOrId })
  else
    let c := cat.getD ""
    let o := oid.getD ""
    match townLookup w.town c with
    | none => (w, { success := false, opName := "update", msg := .categoryNotFound })
    | some r =>
      let objs := heapGet w.heap r
      match findIdxOfId objs o with
      | none => (w, { success := false, opName := "update", msg := .objectNotFound })
      | some i =>
        match data with
        | none => (w, { success := false, opName := "update", msg := .typeErr })
        | some d =>
          let merged := ((objs.get? i).getD .nil).merge d
          ({ w with heap := heapSet w.heap r (objs.set i merged) },
           { success := true, opName := "update", msg := .updatedOk,
             rid := some (.str o) })

/-- The closest-model scan of `_delete_object`: left-to-right fold
tracking `(closest_model_index, closest_distance, closest_id)`, with a
strict `<` improvement test (the first index attaining the minimum is
kept; the initial distance is `float('inf')`, modeled by the `none`
accumulator). -/
def scanStep (p : JObj) (acc : Option (Nat × ℚ × Option JVal))
    (io : Nat × JObj) : Option (Nat × ℚ × Option JVal) :=
  let d := dsq p (posOf io.2)
  match acc with
  | none => some (io.1, d, io.2.lookup "id")
  | some best =>
    if d < best.2.1 then some (io.1, d, io.2.lookup "id") else some best

/-- Scan a category list for the object closest to `p`. -/
def scanClosest (p : JObj) (objs : List JObj) : Option (Nat × ℚ × Option JVal) :=
  (objs.enum).foldl (scanStep p) none

/-- `BatchOperationsManager._delete_object`: delete by exact id, or by
position (closest object, only when its distance is strictly below the
2.0-unit threshold, i.e. squared distance below 4). -/
def deleteObject (w : Work) (cat oid : Option String) (pos : Option JObj) :
    Work × OpResult :=
  if strFalsy cat then
    (w, { success := false, opName := "delete", msg := .missingCategory })
  else if strFalsy oid && dictFalsy pos then
    (w, { success := false, opName := "delete", msg := .missingIdAndPosition })
  else
    let c := cat.getD ""
    match townLookup w.town c with
    | none => (w, { success := false, opName := "delete", msg := .categoryNotFound })
    | some r =>
      let objs := heapGet w.heap r
      if !strFalsy oid then
        let o := oid.getD ""
        match findIdxOfId objs o with
        | none => (w, { success := false, opName := "delete", msg := .objectNotFound })
        | some i =>
          ({ w with heap := heapSet w.heap r (objs.eraseIdx i) },
           { success := true, opName := "delete", msg := .deletedOk,
             rid := some (.str o) })
      else
        let p := (pos.getD .nil)
        match scanClosest p objs with
        | some best =>
          if best.2.1 < 4 then
            ({ w with heap := heapSet w.heap r (objs.eraseIdx best.1) },
             { success := true, opName := "delete", msg := .deletedOk,
               rid := best.2.2, rdsq := some best.2.1 })
          else
            (w, { success := false, opName := "delete", msg := .noModelInRange })
        | none => (w, { success := false, opName := "delete", msg := .noModelInRange })

/-- `BatchOperationsManager._edit_object`: set `position`/`rotation`/
`scale` on the first object with the given id (in-place dict item
assignment on the shared list's element). -/
def editObject (w : Work) (cat oid : Option String)
    (pos rot scl : Option JObj) : Work × OpResult :=
  if strFalsy cat || strFalsy oid then
    (w, { success := false, opName := "edit", msg := .missingCategoryOrId })
  else
    let c := cat.getD ""
    let o := oid.getD ""
    match townLookup w.town c with
    | none => (w, { success := false, opName := "edit", msg := .categoryNotFound })
    | some r =>
      let objs := heapGet w.heap r
      match findIdxOfId objs o with
      | none => (w, { success := false, opName := "edit", msg := .objectNotFound })
      | some i =>
        let ob0 := (objs.get? i).getD .nil
        let ob1 := match pos with | some p => ob0.set "position" (.obj p) | none => ob0
        let ob2 := match rot with | some q => ob1.set "rotation" (.obj q) | none => ob1
        let ob3 := match scl with | some q => ob2.set "scale" (.obj q) | none => ob2
        ({ w with heap := heapSet w.heap r (objs.set i ob3) },
         { success := true, opName := "edit", msg := .editedOk,
           rid := some (.str o) })

/-- `BatchOperationsManager._execute_single_operation`: dispatch on the
operation kind. -/
def execSingle (w : Work) (op : BatchOp) (validate : Bool) : Work × OpResult :=
  if op.op = "create" then createObject w op.category op.data validate
  else if op.op = "update" then updateObject w op.category op.id op.data
  else if op.op = "delete" then deleteObject w op.category op.id op.position
  else if op.op = "edit" then editObject w op.category op.id op.position op.rot op.scl
  else (w, { success := false, opName := op.op, msg := .unknownOp op.op })

/-! ## History manager (`app/services/history.py`, in-memory path)

`_history_stack` and `_redo_stack` are `deque(maxlen=100)`: appending
to a full deque silently drops the oldest (leftmost) entry.  Entries
hold the full `before_state`/`after_state` town dicts (sharing list
references with whatever produced them).  The entry timestamp plays no
role in any claim and is omitted. -/

/-- `MAX_HISTORY_SIZE` of `app/services/history.py`. -/
def MAX_HISTORY_SIZE : Nat := 100

/-- A history entry (`HistoryManager.add_entry`'s dict, without the
timestamp). -/
structure HEntry where
  id : String
  operation : String
  category : Option String := none
  objectId : Option String := none
  before : Option TownDict := none
  after : Option TownDict := none
  deriving DecidableEq, Repr

/-- The entry built by `add_entry` with fresh-name counter `g`. -/
def mkEntry (g : Nat) (operation : String) (category objectId : Option String)
    (before after : Option TownDict) : HEntry :=
  { id := genName g, operation := operation, category := category,
    objectId := objectId, before := before, after := after }

/-- Append on a `deque(maxlen=MAX_HISTORY_SIZE)`: oldest entries are
dropped so that at most 100 remain. -/
def pushCap (l : List HEntry) (e : HEntry) : List HEntry :=
  (l ++ [e]).drop (l.length + 1 - MAX_HISTORY_SIZE)

/-- The whole in-process state: the heap of list objects, the
canonical store (`_town_data_storage`), the two history stacks
(oldest first; the right end is the deque's top), and the fresh-name
counter. -/
structure SysState where
  heap : Heap
  store : TownDict
  hist : List HEntry
  redo : List HEntry
  gen : Nat
  deriving DecidableEq, Repr

/-- `storage.get_town_data` (in-memory fallback):
`_town_data_storage.copy()` — a fresh dict sharing the category list
objects. -/
def getTownData (s : SysState) : TownDict :=
  s.store

/-- `storage.set_town_data` (in-memory): `_town_data_storage =
data.copy()` — again sharing list objects. -/
def setTownData (s : SysState) (d : TownDict) : SysState :=
  { s with store := d }

/-- `HistoryManager.add_entry` (in-memory path): push the new entry on
the bounded history deque and clear the redo stack; returns the new
state and the entry id. -/
def addEntry (s : SysState) (operation : String)
    (category objectId : Option String) (before after : Option TownDict) :
    SysState × String :=
  let e := mkEntry s.gen operation category objectId before after
  ({ s with gen := s.gen + 1, hist := pushCap s.hist e, redo := [] }, e.id)

/-- `HistoryManager.get_history` (in-memory path):
`list(reversed(list(_history_stack)[:limit]))` — note that `[:limit]`
slices the *oldest* `limit` entries. -/
def getHistory (s : SysState) (limit : Nat) : List HEntry :=
  (s.hist.take limit).reverse

/-- `HistoryManager.can_undo` (in-memory path). -/
def canUndo (s : SysState) : Bool :=
  !s.hist.isEmpty

/-- `HistoryManager.can_redo` (in-memory path). -/
def canRedo (s : SysState) : Bool :=
  !s.redo.isEmpty

/-- `HistoryManager.pop_last_entry` (in-memory path). -/
def popLastEntry (s : SysState) : SysState × Option HEntry :=
  match s.hist.getLast? with
  | none => (s, none)
  | some e => ({ s with hist := s.hist.dropLast }, some e)

/-- `HistoryManager.push_redo_entry` (in-memory path: a plain deque
append, bounded by the deque's maxlen). -/
def pushRedoEntry (s : SysState) (e : HEntry) : SysState :=
  { s with redo := pushCap s.redo e }

/-- `HistoryManager.pop_redo_entry` (in-memory path). -/
def popRedoEntry (s : SysState) : SysState × Option HEntry :=
  match s.redo.getLast? with
  | none => (s, none)
  | some e => ({ s with redo := s.redo.dropLast }, some e)

/-- `HistoryManager.clear_history`. -/
def clearHistory (s : SysState) : SysState :=
  { s with hist := [], redo := [] }

/-! ## `BatchOperationsManager.execute_operations`

The method is a plain `def`, but `get_town_data`
(`app/services/storage.py`) is `async def` and is called *without*
`await` at batch_operations.py:35: `town_data` is bound to a coroutine
object, not a dict.  The very next line, `original_town_data =
town_data.copy()` (line 36), sits before the method's `try` block and
raises `AttributeError` — a coroutine has no `copy` attribute — so
every call raises before any read or write of the store.  (Further
down, the `set_town_data(...)` and `history_manager.add_entry(...)`
calls at lines 56 and 59 are likewise unawaited coroutine
constructions that would never run.)  The caller, `app/routes/batch.py`,
catches the exception and returns HTTP 500.  The per-operation helpers
above (`_create_object` etc.) are faithful embeddings of the sync
helpers, but `execute_operations` never reaches them. -/

/-- A Python exception class, as far as the modeled code distinguishes
them. -/
inductive PyErr where
  | attributeError
  | typeError
  deriving DecidableEq, Repr

/-- `BatchOperationsManager.execute_operations`: raises
`AttributeError` at `town_data.copy()` (batch_operations.py:36) on
every call, leaving the whole in-process state untouched; no result
list or success/failure counters are ever produced. -/
def execute_operations (s : SysState) (_ops : List BatchOp)
    (_validate : Bool) : SysState × Except PyErr (List OpResult × Nat × Nat) :=
  (s, .error .attributeError)

/-! ## Undo/redo routes (`app/routes/history.py`)

A raised `HTTPException(status, detail)` is the route's 4xx response
(FastAPI converts it into an error reply; the server does not crash);
it is modeled as the `httpError` result.  `broadcast_sse` has no
effect on the modeled state and is omitted. -/

/-- Which `HTTPException(400, ...)` detail a route produced. -/
inductive ErrTag where
  | nothingToUndo
  | failedGetLast
  | noPreviousState
  | nothingToRedo
  | failedGetRedo
  | noAfterState
  deriving DecidableEq, Repr

/-- Route outcome: the success JSON (with its `can_undo`/`can_redo`
fields) or an HTTP error response. -/
inductive RouteResult where
  | ok (canUndoFlag canRedoFlag : Bool)
  | httpError (status : Nat) (tag : ErrTag)
  deriving DecidableEq, Repr

/-- `undo_operation` of `app/routes/history.py`. -/
def undoOp (s : SysState) : SysState × RouteResult :=
  if !canUndo s then
    (s, .httpError 400 .nothingToUndo)
  else
    match popLastEntry s with
    | (s1, none) => (s1, .httpError 400 .failedGetLast)
    | (s1, some last) =>
      match last.before with
      | none => (s1, .httpError 400 .noPreviousState)
      | some before =>
        let s3 := pushRedoEntry (setTownData s1 before) last
        (s3, .ok (canUndo s3) (canRedo s3))

/-- `redo_operation` of `app/routes/history.py`: pop the redo entry,
restore its `after_state`, and re-append it to history via
`add_entry` (which clears the redo stack). -/
def redoOp (s : SysState) : SysState × RouteResult :=
  if !canRedo s then
    (s, .httpError 400 .nothingToRedo)
  else
    match popRedoEntry s with
    | (s1, none) => (s1, .httpError 400 .failedGetRedo)
    | (s1, some entry) =>
      match entry.after with
      | none => (s1, .httpError 400 .noAfterState)
      | some after =>
        let s3 := (addEntry (setTownData s1 after) entry.operation
          entry.category entry.objectId entry.before (some after)).1
        (s3, .ok (canUndo s3) (canRedo s3))

/-! ## Query engine (`app/services/query.py`)

Every public `QueryManager` method begins with `town_data =
get_town_data()` — an `async` function called *without* `await`
(query.py:32, 84, 130, 183) — binding a coroutine object.  With a
falsy `category`, `self._get_all_categories(town_data)` then raises
`AttributeError` at `town_data.items()`; with a truthy `category`, the
loop's first `cat not in town_data` membership test raises `TypeError`
(membership on a coroutine).  Either way the method raises before
examining a single object and the route returns HTTP 500.  The
per-object helpers (`_get_nested_value`, `_evaluate_condition`,
`_matches_filters`, the distance computation), which receive their
data as parameters, are embedded faithfully below. -/

/-- The exception every `QueryManager` method raises in its prologue,
as a function of the `category` argument (`categories = [category] if
category else self._get_all_categories(town_data)`, then the loop's
`cat not in town_data`). -/
def queryPrologueErr (catF : Option String) : PyErr :=
  match catF with
  | some c => if c = "" then .attributeError else .typeError
  | none => .attributeError

/-- `QueryManager.spatial_query_radius`: raises in its prologue on
every call (query.py:32/36/39); no object list is ever produced. -/
def spatial_query_radius (_s : SysState) (_center : JObj) (_rad : ℚ)
    (catF : Option String) (_lim : Option Int) : Except PyErr (List JObj) :=
  .error (queryPrologueErr catF)

/-! ### Advanced query -/

/-- A filter condition (`app.models.schemas.FilterCondition`). -/
structure FilterCond where
  field : String
  operator : String
  value : JVal
  deriving DecidableEq, Repr

/-- Accumulator pass of `splitDot` over the character list. -/
def splitDotAux : List Char → List Char → List String
  | [], acc => [String.mk acc.reverse]
  | c :: rest, acc =>
    if c = '.' then String.mk acc.reverse :: splitDotAux rest []
    else splitDotAux rest (c :: acc)

/-- `field.split(".")`: dot-separated path components (an empty field
yields `[""]`, as in Python). -/
def splitDot (s : String) : List String :=
  splitDotAux s.toList []

/-- Path walk of `QueryManager._get_nested_value`: descend through
dicts (`value.get(part)`, whose missing-key result `None` is `null`);
a non-dict intermediate yields `None`. -/
def walkPath : List String → JVal → JVal
  | [], v => v
  | p :: ps, v =>
    match v with
    | .obj fs => walkPath ps ((fs.lookup p).getD .null)
    | _ => .null

/-- `QueryManager._get_nested_value` on an object dict with a
dot-separated field path. -/
def getNestedValue (o : JObj) (field : String) : JVal :=
  walkPath (splitDot field) (.obj o)

/-- Python `<` restricted to like types; comparing a number with a
string (or anything with `None`/a dict) raises `TypeError`, which the
source's `except` turns into `False`. -/
def jSortLt (a b : JVal) : Bool :=
  match a, b with
  | .num x, .num y => x < y
  | .str x, .str y => x < y
  | _, _ => false

/-- Python `<=` under the same conventions. -/
def jSortLe (a b : JVal) : Bool :=
  match a, b with
  | .num x, .num y => x ≤ y
  | .str x, .str y => decide (x < y) || x = y
  | _, _ => false

/-- Python `needle in haystack` on strings (empty needle matches). -/
def strContains (haystack needle : String) : Bool :=
  if needle = "" then true else (haystack.splitOn needle).length ≥ 2

/-- `str(x)` as used by the `contains` operator.  Exact for strings
(the only case a claim exercises); other values are rendered
approximately. -/
def pyStr : JVal → String
  | .str s => s
  | .num q => toString q
  | .null => "None"
  | .obj _ => ""

/-- `QueryManager._evaluate_condition`: a `None` object value fails
every operator before any dispatch; order comparisons across types
raise and are caught as `False`; unknown operators are `False`. -/
def evalCondition (objValue : JVal) (operator : String) (filterValue : JVal) :
    Bool :=
  if objValue = .null then false
  else if operator = "eq" then objValue = filterValue
  else if operator = "ne" then objValue ≠ filterValue
  else if operator = "gt" then jSortLt filterValue objValue
  else if operator = "lt" then jSortLt objValue filterValue
  else if operator = "gte" then jSortLe filterValue objValue
  else if operator = "lte" then jSortLe objValue filterValue
  else if operator = "contains" then
    match filterValue with
    | .str nv => strContains (pyStr objValue) nv
    | _ => false
  else if operator = "in" then
    match filterValue with
    | .str hs =>
      match objValue with
      | .str ov => strContains hs ov
      | _ => false
    | .obj fs =>
      match objValue with
      | .str k => fs.hasKey k
      | _ => false
    | _ => false
  else false

/-- `QueryManager._matches_filters`: conjunction over the filter
list. -/
def matchesFilters (o : JObj) (filters : List FilterCond) : Bool :=
  filters.all (fun fc =>
    evalCondition (getNestedValue o fc.field) fc.operator fc.value)

/-- `QueryManager.advanced_query`: raises in its prologue
(query.py:183/187/190) on every call; filters, sort and pagination
are never reached and no result list is ever produced. -/
def advanced_query (_s : SysState) (catF : Option String)
    (_filters : List FilterCond) (_sortBy : Option String)
    (_sortOrder : String) (_lim : Option Int) (_offset : Nat) :
    Except PyErr (List JObj) :=
  .error (queryPrologueErr catF)

/-! ## Concrete fixtures

`initState` is `DEFAULT_TOWN_DATA` of `app/services/storage.py` (four
empty category lists) held in the in-memory store, with empty history
stacks. -/

/-- The initial in-process state (`DEFAULT_TOWN_DATA`, empty
history). -/
def initState : SysState :=
  { heap := [[], [], [], []],
    store := [("buildings", 0), ("terrain", 1), ("roads", 2), ("props", 3)],
    hist := [], redo := [], gen := 0 }

/-- A scene object with an explicit id and no other fields. -/
def objX : JObj :=
  JObj.ofList [("id", .str "x")]

/-- `{"op": "create", "category": "buildings", "data": {"id": "x"}}`. -/
def opCreateX : BatchOp :=
  { op := "create", category := some "buildings", data := some objX }

/-- `{"op": "update", "category": "buildings", "id": "zzz", "data":
{}}` — fails (`Object zzz not found`). -/
def opUpdateZ : BatchOp :=
  { op := "update", category := some "buildings", id := some "zzz",
    data := some .nil }

/-- A point dict `{"x": x, "y": 0, "z": 0}`. -/
def posAt (x : ℚ) : JObj :=
  JObj.ofList [("x", .num x), ("y", .num 0), ("z", .num 0)]

/-! ## C1 — batch atomicity -/

/-- C1: for every state, every batch — in particular every batch
containing a failing operation, in any mix with valid ones — and
either validation mode, `execute_operations` commits nothing: it
raises `AttributeError` at `town_data.copy()` before touching the
store, so the canonical scene state (indeed the whole in-process
state) after the call equals the state before the call exactly, and
the batch route reports a 500 error.  Atomicity holds, degenerately:
no batch, failing or not, ever writes anything. -/
theorem failed_batch_commits_nothing :
    ∀ (s : SysState) (ops : List BatchOp) (validate : Bool),
      (execute_operations s ops validate).1 = s ∧
      readTown (execute_operations s ops validate).1.heap
          (execute_operations s ops validate).1.store =
        readTown s.heap s.store ∧
      (execute_operations s ops validate).2 = .error .attributeError :=
  fun _ _ _ => ⟨rfl, rfl, rfl⟩

/-! ## C2 — undo/redo restoration -/

/-- C2 (code_bug evidence): the claim presumes a committed mutation
`M` taking state `S` to `S'`; the code can never produce one.  At the
claim's scenario — a single-create batch from the initial state —
`execute_operations` raises and leaves the state, history included,
unchanged; its `history_manager.add_entry(...)` coroutine never runs;
and the subsequent `undo()` finds an empty history stack and returns
the 400 `Nothing to undo` response instead of restoring any
pre-mutation state. -/
theorem undo_has_no_committed_mutation :
    (execute_operations initState [opCreateX] true).1 = initState ∧
    (execute_operations initState [opCreateX] true).1.hist = [] ∧
    canUndo (execute_operations initState [opCreateX] true).1 = false ∧
    undoOp (execute_operations initState [opCreateX] true).1 =
      (initState, .httpError 400 .nothingToUndo) := by
  decide

/-! ## C3 — get_history ordering -/

/-- Two entries added in order: `first`, then `second` (the newest). -/
def c3S : SysState :=
  (addEntry (addEntry initState "first" none none none none).1
    "second" none none none none).1

/-- C3 (code_bug evidence): with two entries on the stack,
`get_history(1)` must return the single newest entry (`second`); the
in-memory path slices `list(_history_stack)[:limit]`, so it returns
the *oldest* entry instead. -/
theorem getHistory_returns_oldest_when_over_limit :
    c3S.hist.length = 2 ∧
    c3S.hist.getLast?.map (fun e => e.operation) = some "second" ∧
    (getHistory c3S 1).map (fun e => e.operation) = ["first"] ∧
    (getHistory c3S 1).map (fun e => e.operation) ≠ ["second"] := by
  decide

/-! ## C8 — id uniqueness per category -/

/-- The claimed invariant: within every category of the (dereferenced)
scene state, object `id` values are pairwise distinct. -/
def idsUniquePerCategory (h : Heap) (t : TownDict) : Prop :=
  ∀ p ∈ readTown h t, ((p.2).map (fun o => o.lookup "id")).Nodup

instance (h : Heap) (t : TownDict) : Decidable (idsUniquePerCategory h t) := by
  unfold idsUniquePerCategory
  infer_instance

/-- C8: the id-uniqueness invariant holds in every reachable scene
state: `execute_operations` — the sole entry point of the
create/update/delete/edit operations — raises on every call and
returns the whole state unchanged, so no sequence of such operations
can introduce a duplicate id.  The initial `DEFAULT_TOWN_DATA` state
satisfies the invariant and every batch call preserves it
(degenerately: nothing is ever written). -/
theorem ids_unique_per_category_preserved :
    idsUniquePerCategory initState.heap initState.store ∧
    (∀ (s : SysState) (ops : List BatchOp) (validate : Bool),
      (execute_operations s ops validate).1 = s) ∧
    (∀ (s : SysState) (ops : List BatchOp) (validate : Bool),
      idsUniquePerCategory s.heap s.store →
      idsUniquePerCategory (execute_operations s ops validate).1.heap
        (execute_operations s ops validate).1.store) :=
  ⟨by decide, fun _ _ _ => rfl, fun _ _ _ h => h⟩

/-- Witness for C8: even a batch of two creates sharing the explicit
id `x` — the input that would forge a duplicate if creates were
committed — preserves the invariant, because the call raises and
writes nothing. -/
theorem ids_unique_per_category_preserved_witness :
    idsUniquePerCategory
      (execute_operations initState [opCreateX, opCreateX] true).1.heap
      (execute_operations initState [opCreateX, opCreateX] true).1.store :=
  ids_unique_per_category_preserved.2.2 initState [opCreateX, opCreateX] true
    (by decide)

/-! ## C9 — empty-stack undo/redo -/

/-- C9: calling `undo` with an empty history stack, or `redo` with an
empty redo stack, returns the 400 failure response (`Nothing to
undo`/`Nothing to redo`) and leaves the whole state — scene store and
both stacks included — unchanged; no exception escapes the route. -/
theorem empty_stack_undo_redo_noop (s : SysState) :
    (s.hist = [] → undoOp s = (s, .httpError 400 .nothingToUndo)) ∧
    (s.redo = [] → redoOp s = (s, .httpError 400 .nothingToRedo)) := by
  constructor
  · intro h
    simp [undoOp, canUndo, h]
  · intro h
    simp [redoOp, canRedo, h]

/-- Witness for C9 at the initial state. -/
theorem empty_stack_undo_redo_noop_witness :
    undoOp initState = (initState, .httpError 400 .nothingToUndo) ∧
    redoOp initState = (initState, .httpError 400 .nothingToRedo) :=
  ⟨(empty_stack_undo_redo_noop initState).1 rfl,
   (empty_stack_undo_redo_noop initState).2 rfl⟩

/-! ## C10 — a successful redo empties the redo stack -/

/-- C10: whenever `redo_operation` succeeds, the resulting redo stack
is empty (the re-appending `add_entry` clears it unconditionally), the
reported `can_redo` flag is `false`, and an immediately following
`redo` fails with the 400 `Nothing to redo` response — so after any
run of undos at most one redo can succeed. -/
theorem redo_clears_redo_stack (s s' : SysState) (u r : Bool)
    (h : redoOp s = (s', .ok u r)) :
    s'.redo = [] ∧ r = false ∧ canRedo s' = false ∧
    redoOp s' = (s', .httpError 400 .nothingToRedo) := by
  unfold redoOp at h
  split at h
  · exact absurd h (by simp)
  · split at h
    · exact absurd h (by simp)
    · split at h
      · exact absurd h (by simp)
      · rw [Prod.mk.injEq] at h
        obtain ⟨hs, hok⟩ := h
        injection hok with hu hr
        subst hs hu hr
        refine ⟨by simp [addEntry], ?_, ?_, ?_⟩
        · simp [canRedo, addEntry]
        · simp [canRedo, addEntry]
        · unfold redoOp
          simp [canRedo, addEntry]

/-- Witness for C10: a state whose redo stack holds two entries. -/
def c10Entry : HEntry :=
  { id := "e", operation := "batch", before := some [("buildings", 0)],
    after := some [("buildings", 0)] }

/-- The witness state: two pending redo entries. -/
def c10S : SysState :=
  { initState with redo := [c10Entry, c10Entry] }

/-- Witness for C10: a concrete successful redo from a two-entry redo
stack leaves the redo stack empty and a second redo failing. -/
theorem redo_clears_redo_stack_witness :
    (redoOp c10S).1.redo = [] ∧ false = false ∧
    canRedo (redoOp c10S).1 = false ∧
    redoOp (redoOp c10S).1 = ((redoOp c10S).1, .httpError 400 .nothingToRedo) :=
  redo_clears_redo_stack c10S (redoOp c10S).1 true false (by decide)

/-! ## C4 — bounded history stacks -/

/-- Both bounded-deque pushes keep at most `MAX_HISTORY_SIZE`
entries. -/
theorem pushCap_length_le (l : List HEntry) (e : HEntry) :
    (pushCap l e).length ≤ MAX_HISTORY_SIZE := by
  simp only [pushCap, MAX_HISTORY_SIZE, List.length_drop, List.length_append,
    List.length_singleton]
  omega

/-- Pushing onto a full deque drops the oldest entry. -/
theorem pushCap_evict (l : List HEntry) (e : HEntry)
    (h : l.length = MAX_HISTORY_SIZE) :
    pushCap l e = l.drop 1 ++ [e] := by
  unfold pushCap
  rw [h]
  simp only [MAX_HISTORY_SIZE]
  rw [show 100 + 1 - 100 = 1 from rfl]
  rw [List.drop_append_of_le_length (by rw [h]; simp [MAX_HISTORY_SIZE])]

/-- Iterated `add_entry` calls (the in-memory pushes that committed
mutations would drive, and that `redo_operation` genuinely awaits). -/
def iterAdd : Nat → SysState → SysState
  | 0, s => s
  | n + 1, s => iterAdd n (addEntry s "batch" none none none none).1

/-- Iterated commit attempts of the single-create batch through the
real executor. -/
def iterCommit : Nat → SysState → SysState
  | 0, s => s
  | n + 1, s => iterCommit n (execute_operations s [opCreateX] true).1

/-- C4 (code_bug evidence): the bounded-stack mechanics of
`history.py` are as claimed — `add_entry` and `push_redo_entry` never
leave more than `MAX_HISTORY_SIZE = 100` entries, a push onto a full
stack silently drops the oldest, and 101 direct `add_entry` calls
leave exactly 100 entries with the first entry (id `g0`) evicted.
But commits cannot drive this mechanism: 101 batch commits through
the real executor leave the history empty (every `execute_operations`
call raises, and its `add_entry` call is an unawaited coroutine), so
`get_history(101)` returns 0 entries, not the claimed 100. -/
theorem history_capacity_bound :
    (∀ (s : SysState) (op : String) (c oid : Option String)
       (b a : Option TownDict),
       (addEntry s op c oid b a).1.hist.length ≤ MAX_HISTORY_SIZE ∧
       (s.hist.length = MAX_HISTORY_SIZE →
         (addEntry s op c oid b a).1.hist =
           s.hist.drop 1 ++ [mkEntry s.gen op c oid b a])) ∧
    (∀ (s : SysState) (e : HEntry),
       (pushRedoEntry s e).redo.length ≤ MAX_HISTORY_SIZE ∧
       (s.redo.length = MAX_HISTORY_SIZE →
         (pushRedoEntry s e).redo = s.redo.drop 1 ++ [e])) ∧
    (getHistory (iterAdd 101 initState) 101).length = MAX_HISTORY_SIZE ∧
    (∀ e ∈ getHistory (iterAdd 101 initState) 101, e.id ≠ genName 0) ∧
    getHistory (iterCommit 101 initState) 101 = [] := by
  refine ⟨?_, ?_, by decide, by decide, by decide⟩
  · intro s op c oid b a
    exact ⟨pushCap_length_le s.hist (mkEntry s.gen op c oid b a),
      fun h => pushCap_evict s.hist (mkEntry s.gen op c oid b a) h⟩
  · intro s e
    exact ⟨pushCap_length_le s.redo e, fun h => pushCap_evict s.redo e h⟩

/-- Witness for C4: pushing the 101st entry onto a full (length-100)
history stack evicts the oldest entry. -/
theorem history_capacity_bound_witness :
    (iterAdd 100 initState).hist.length = MAX_HISTORY_SIZE ∧
    (addEntry (iterAdd 100 initState) "m" none none none none).1.hist =
      (iterAdd 100 initState).hist.drop 1 ++
        [mkEntry (iterAdd 100 initState).gen "m" none none none none] :=
  ⟨by decide,
   (history_capacity_bound.1 (iterAdd 100 initState) "m" none none none
     none).2 (by decide)⟩

/-! ## C7 — null/missing fields fail every filter operator -/

/-- A vehicle with `driver` set to `police`. -/
def car1 : JObj :=
  JObj.ofList [("id", .str "car1"), ("driver", .str "police")]

/-- A vehicle whose `driver` is JSON `null` (Python `None`). -/
def car2 : JObj :=
  JObj.ofList [("id", .str "car2"), ("driver", .null)]

/-- A vehicle with `driver` set to `fire`. -/
def car3 : JObj :=
  JObj.ofList [("id", .str "car3"), ("driver", .str "fire")]

/-- A store holding the three vehicles of the spec's example. -/
def vehiclesState : SysState :=
  { heap := [[car1, car2, car3]], store := [("vehicles", 0)],
    hist := [], redo := [], gen := 0 }

/-- C7: `_evaluate_condition` returns `False` for a `None` object
value before dispatching on *any* operator (`ne` included), and
`_get_nested_value` yields `None` for a missing field, so the
per-object filter logic excludes such objects; applied to the spec's
example objects (drivers `police`, `null`, `fire`, each with the
loop's category annotation), the condition `driver eq police` matches
exactly the one `police` object, and `driver ne police` matches only
the `fire` object.  The route-level clause of the claim fails,
however: `advanced_query` raises at its un-awaited `get_town_data()`
prologue on every call and never returns a result list at all. -/
theorem null_field_fails_all_operators :
    (∀ (operator : String) (v : JVal), evalCondition .null operator v = false) ∧
    (∀ fs : JObj, fs.lookup "driver" = none →
      getNestedValue fs "driver" = .null) ∧
    (([car1, car2, car3].map (fun o =>
        o.merge (JObj.ofList [("category", .str "vehicles")]))).filter
      (fun oc => matchesFilters oc [⟨"driver", "eq", .str "police"⟩])).map
        (fun o => o.lookup "id") = [some (.str "car1")] ∧
    (([car1, car2, car3].map (fun o =>
        o.merge (JObj.ofList [("category", .str "vehicles")]))).filter
      (fun oc => matchesFilters oc [⟨"driver", "ne", .str "police"⟩])).map
        (fun o => o.lookup "id") = [some (.str "car3")] ∧
    (∀ res : List JObj,
      advanced_query vehiclesState none [⟨"driver", "eq", .str "police"⟩]
        none "asc" none 0 ≠ .ok res) ∧
    advanced_query vehiclesState none [⟨"driver", "eq", .str "police"⟩]
      none "asc" none 0 = .error .attributeError := by
  refine ⟨?_, ?_, by decide, by decide, ?_, rfl⟩
  · intro operator v
    simp [evalCondition]
  · intro fs h
    simp [getNestedValue, show splitDot "driver" = ["driver"] from by decide,
      walkPath, h]
  · intro res h
    unfold advanced_query at h
    exact Except.noConfusion h

/-- Witness for C7: the empty object has no `driver` key, and its
nested lookup is `None`. -/
theorem null_field_fails_all_operators_witness :
    getNestedValue .nil "driver" = .null :=
  null_field_fails_all_operators.2.1 .nil rfl

/-! ## C6 — the radius query -/

/-- An object at distance 4.9 from the origin. -/
def objA : JObj :=
  JObj.ofList [("id", .str "a"), ("position", .obj (posAt (mkRat 49 10)))]

/-- An object at distance 5.1 from the origin. -/
def objB : JObj :=
  JObj.ofList [("id", .str "b"), ("position", .obj (posAt (mkRat 51 10)))]

/-- A store holding the 4.9 and 5.1 objects of the spec's example. -/
def radiusState : SysState :=
  { heap := [[objA, objB]], store := [("props", 0)],
    hist := [], redo := [], gen := 0 }

/-- The origin point. -/
def origin : JObj :=
  posAt 0

/-- C6 (code_bug evidence): at the spec's example — objects at
distances 4.9 and 5.1 from the origin, radius 5 — the claim says the
query returns exactly the 4.9-object annotated with its distance.
`spatial_query_radius` instead raises at its un-awaited
`get_town_data()` prologue (`AttributeError` without a category
filter, `TypeError` with one) on this and every other input, and
never returns a result list, truncated or otherwise. -/
theorem radius_query_raises :
    (∀ (s : SysState) (center : JObj) (rad : ℚ) (catF : Option String)
       (lim : Option Int) (res : List JObj),
       spatial_query_radius s center rad catF lim ≠ .ok res) ∧
    spatial_query_radius radiusState origin 5 none none =
      .error .attributeError ∧
    spatial_query_radius radiusState origin 5 (some "props") (some 1) =
      .error .typeError := by
  refine ⟨?_, rfl, rfl⟩
  intro s center rad catF lim res h
  unfold spatial_query_radius at h
  exact Except.noConfusion h

/-! ## C5 — delete by position -/

/-- Unrolled form of the closest-model fold (`scanClosest`), indexed
by the position of the next element. -/
def scanFrom (p : JObj) : Nat → Option (Nat × ℚ × Option JVal) → List JObj →
    Option (Nat × ℚ × Option JVal)
  | _, acc, [] => acc
  | n, acc, o :: rest => scanFrom p (n + 1) (scanStep p acc (n, o)) rest

/-- The enumerated fold is `scanFrom`. -/
theorem scanClosest_eq_scanFrom (p : JObj) (objs : List JObj) :
    scanClosest p objs = scanFrom p 0 none objs := by
  unfold scanClosest
  suffices h : ∀ (l : List JObj) (n : Nat) (acc),
      (l.enumFrom n).foldl (scanStep p) acc = scanFrom p n acc l by
    exact h objs 0 none
  intro l
  induction l with
  | nil => intro n acc; rfl
  | cons o rest ih =>
    intro n acc
    show ((n, o) :: rest.enumFrom (n + 1)).foldl (scanStep p) acc = _
    rw [List.foldl_cons]
    exact ih (n + 1) (scanStep p acc (n, o))

/-- Running the scan from a nonempty accumulator yields the first
strict minimum among the accumulator and the remaining elements. -/
theorem scanFrom_some (p : JObj) (objs : List JObj) :
    ∀ (n i0 : Nat) (d0 : ℚ) (b0 : Option JVal),
      ∃ i d bid, scanFrom p n (some (i0, d0, b0)) objs = some (i, d, bid) ∧
        d ≤ d0 ∧ (∀ o ∈ objs, d ≤ dsq p (posOf o)) ∧
        ((i, d, bid) = (i0, d0, b0) ∨
          ∃ k oi, objs.get? k = some oi ∧ i = n + k ∧
            d = dsq p (posOf oi) ∧ bid = oi.lookup "id") := by
  induction objs with
  | nil =>
    intro n i0 d0 b0
    exact ⟨i0, d0, b0, rfl, le_refl d0, by simp, Or.inl rfl⟩
  | cons o rest ih =>
    intro n i0 d0 b0
    by_cases hd : dsq p (posOf o) < d0
    · have hstep : scanFrom p n (some (i0, d0, b0)) (o :: rest) =
          scanFrom p (n + 1) (some (n, dsq p (posOf o), o.lookup "id")) rest := by
        show scanFrom p (n + 1) (scanStep p (some (i0, d0, b0)) (n, o)) rest = _
        rw [scanStep, if_pos hd]
      obtain ⟨i, d, bid, heq, hle, hall, hpos⟩ :=
        ih (n + 1) n (dsq p (posOf o)) (o.lookup "id")
      refine ⟨i, d, bid, hstep ▸ heq, hle.trans (le_of_lt hd), ?_, ?_⟩
      · intro z hz
        rcases List.mem_cons.mp hz with hz | hz
        · exact hz ▸ hle
        · exact hall z hz
      · rcases hpos with hpos | ⟨k, oi, hk, hi, hdd, hb⟩
        · simp only [Prod.mk.injEq] at hpos
          obtain ⟨h1, h2a, h2b⟩ := hpos
          exact Or.inr ⟨0, o, rfl, by omega, h2a, h2b⟩
        · exact Or.inr ⟨k + 1, oi, hk, by omega, hdd, hb⟩
    · have hstep : scanFrom p n (some (i0, d0, b0)) (o :: rest) =
          scanFrom p (n + 1) (some (i0, d0, b0)) rest := by
        show scanFrom p (n + 1) (scanStep p (some (i0, d0, b0)) (n, o)) rest = _
        rw [scanStep, if_neg hd]
      obtain ⟨i, d, bid, heq, hle, hall, hpos⟩ := ih (n + 1) i0 d0 b0
      refine ⟨i, d, bid, hstep ▸ heq, hle, ?_, ?_⟩
      · intro z hz
        rcases List.mem_cons.mp hz with hz | hz
        · exact hz ▸ (hle.trans (le_of_not_lt hd))
        · exact hall z hz
      · rcases hpos with hpos | ⟨k, oi, hk, hi, hdd, hb⟩
        · exact Or.inl hpos
        · exact Or.inr ⟨k + 1, oi, hk, by omega, hdd, hb⟩

/-- On a nonempty list, the scan returns an index of an object whose
distance is minimal over the whole list (the source keeps the first
such index). -/
theorem scanClosest_spec (p : JObj) (o0 : JObj) (rest : List JObj) :
    ∃ i d bid, scanClosest p (o0 :: rest) = some (i, d, bid) ∧
      (∃ oi, (o0 :: rest).get? i = some oi ∧ d = dsq p (posOf oi) ∧
        bid = oi.lookup "id") ∧
      ∀ o ∈ o0 :: rest, d ≤ dsq p (posOf o) := by
  rw [scanClosest_eq_scanFrom]
  have hstep : scanFrom p 0 none (o0 :: rest) =
      scanFrom p 1 (some (0, dsq p (posOf o0), o0.lookup "id")) rest := rfl
  rw [hstep]
  obtain ⟨i, d, bid, heq, hle, hall, hpos⟩ :=
    scanFrom_some p rest 1 0 (dsq p (posOf o0)) (o0.lookup "id")
  refine ⟨i, d, bid, heq, ?_, ?_⟩
  · rcases hpos with hpos | ⟨k, oi, hk, hi, hdd, hb⟩
    · simp only [Prod.mk.injEq] at hpos
      obtain ⟨h1, h2a, h2b⟩ := hpos
      exact ⟨o0, by rw [h1, List.get?_cons_zero], h2a, h2b⟩
    · exact ⟨oi, by rw [hi, Nat.add_comm 1 k]; exact hk, hdd, hb⟩
  · intro z hz
    rcases List.mem_cons.mp hz with hz | hz
    · exact hz ▸ hle
    · exact hall z hz

/-- The guards of `_delete_object` on a nonempty category and a
truthy position reduce the operation to the closest-model branch. -/
theorem deleteObject_pos_branch (w : Work) (c : String) (p : JObj) (r : Nat)
    (hc : c ≠ "") (hp : p ≠ .nil) (htl : townLookup w.town c = some r) :
    deleteObject w (some c) none (some p) =
      match scanClosest p (heapGet w.heap r) with
      | some best =>
        if best.2.1 < 4 then
          ({ w with heap := heapSet w.heap r ((heapGet w.heap r).eraseIdx best.1) },
           { success := true, opName := "delete", msg := .deletedOk,
             rid := best.2.2, rdsq := some best.2.1 })
        else
          (w, { success := false, opName := "delete", msg := .noModelInRange })
      | none => (w, { success := false, opName := "delete", msg := .noModelInRange }) := by
  unfold deleteObject
  simp [strFalsy, dictFalsy, hc, hp, htl]

/-- An object placed at `(10, 0, 0)`. -/
def obj10 : JObj :=
  JObj.ofList [("id", .str "m1"),
    ("position", .obj (posAt 10))]

/-- A working state holding only `obj10` in `buildings`. -/
def deleteWork : Work :=
  { heap := [[obj10]], town := [("buildings", 0)], gen := 0 }

/-- C5: given a category (present, with a truthy position dict),
delete-by-position removes exactly an object of minimal squared
distance and succeeds exactly when that minimal squared distance is
strictly below `4` (distance strictly below the 2.0 threshold);
otherwise it fails as not-found and changes nothing.  Concretely, an
object at `(10,0,0)` is deleted by position `(10.5,0,0)` (squared
distance `0.25 < 4`) and deletion by `(13,0,0)` fails (squared
distance `9 ≥ 4`) leaving the state unchanged. -/
theorem delete_by_position_min_distance :
    (∀ (w : Work) (c : String) (p : JObj) (r : Nat),
      c ≠ "" → p ≠ .nil → townLookup w.town c = some r →
      ((heapGet w.heap r = [] →
        deleteObject w (some c) none (some p) =
          (w, { success := false, opName := "delete", msg := .noModelInRange })) ∧
       ((deleteObject w (some c) none (some p)).2.success = true →
         ∃ i oi, (heapGet w.heap r).get? i = some oi ∧
           (deleteObject w (some c) none (some p)).1 =
             { w with heap := heapSet w.heap r ((heapGet w.heap r).eraseIdx i) } ∧
           (deleteObject w (some c) none (some p)).2.rid = oi.lookup "id" ∧
           (deleteObject w (some c) none (some p)).2.rdsq =
             some (dsq p (posOf oi)) ∧
           dsq p (posOf oi) < 4 ∧
           ∀ o ∈ heapGet w.heap r, dsq p (posOf oi) ≤ dsq p (posOf o)) ∧
       ((deleteObject w (some c) none (some p)).2.success = false →
         (deleteObject w (some c) none (some p)).1 = w ∧
         ∀ o ∈ heapGet w.heap r, 4 ≤ dsq p (posOf o)))) ∧
    (deleteObject deleteWork (some "buildings") none
      (some (posAt (mkRat 21 2)))).2.success = true ∧
    heapGet (deleteObject deleteWork (some "buildings") none
      (some (posAt (mkRat 21 2)))).1.heap 0 = [] ∧
    deleteObject deleteWork (some "buildings") none (some (posAt 13)) =
      (deleteWork,
       { success := false, opName := "delete", msg := .noModelInRange }) := by
  refine ⟨?_, by decide, by decide, by decide⟩
  intro w c p r hc hp htl
  rw [deleteObject_pos_branch w c p r hc hp htl]
  cases hobjs : heapGet w.heap r with
  | nil =>
    have hred : scanClosest p ([] : List JObj) = none := rfl
    rw [hred]
    dsimp only
    exact ⟨fun _ => rfl, fun hsucc => absurd hsucc (by simp),
      fun _ => ⟨rfl, by simp⟩⟩
  | cons o0 rest =>
    obtain ⟨i, d, bid, hscan, ⟨oi, hoi, hdd, hb⟩, hall⟩ :=
      scanClosest_spec p o0 rest
    rw [hscan]
    dsimp only
    by_cases h4 : d < 4
    · rw [if_pos h4]
      dsimp only
      refine ⟨fun habs => absurd habs (List.cons_ne_nil o0 rest),
        fun _ => ?_, fun hfalse => absurd hfalse (by simp)⟩
      exact ⟨i, oi, hoi, rfl, hb, by rw [hdd], hdd ▸ h4,
        fun o ho => hdd ▸ hall o ho⟩
    · rw [if_neg h4]
      dsimp only
      refine ⟨fun habs => absurd habs (List.cons_ne_nil o0 rest),
        fun htrue => absurd htrue (by simp), fun _ => ⟨rfl, fun o ho => ?_⟩⟩
      exact le_trans (le_of_not_lt (hdd ▸ h4)) (hdd ▸ hall o ho)

/-- Witness for C5: the failed deletion at `(13,0,0)` leaves the
state unchanged and every object at squared distance at least 4. -/
theorem delete_by_position_min_distance_witness :
    (deleteObject deleteWork (some "buildings") none (some (posAt 13))).1 =
      deleteWork ∧
    ∀ o ∈ heapGet deleteWork.heap 0, 4 ≤ dsq (posAt 13) (posOf o) :=
  (delete_by_position_min_distance.1 deleteWork "buildings" (posAt 13) 0
    (by decide) (by decide) (by decide)).2.2 (by decide)

end TownBuilder
